import Mathlib

/-!
Verification of the D-Summoner-Story backend core against its specification.

The development shallowly embeds the two core components:

* the statistics aggregator (`src/backend/src/shared/utils.py`):
  `calculate_kda`, `calculate_win_rate`, `get_month_year_from_timestamp`,
  `process_match_statistics`, `calculate_improvement_trend`,
  `calculate_consistency_score`;
* the Riot API client request pipeline (`src/backend/src/shared/riot_client.py`):
  circuit breaker, retry loop of `_make_request`, `_handle_rate_limit`,
  and the paging loop of `get_full_match_history_with_time`.

Python floats are modelled as exact rationals; Python `round(x, n)`
(banker's rounding) is modelled as round-half-even on rationals.
-/

/-! ## Python-style numeric primitives -/

/-- Round-half-even (banker's rounding) of a rational to an integer,
modelling Python's built-in `round` on an exact value. -/
def roundHalfEven (q : ℚ) : ℤ :=
  let n := ⌊q⌋
  let frac := q - n
  if frac < 1/2 then n
  else if 1/2 < frac then n + 1
  else if n % 2 = 0 then n else n + 1

/-- Python `round(q, p)`: round to `p` decimal places with banker's rounding. -/
def pyRound (p : Nat) (q : ℚ) : ℚ :=
  (roundHalfEven (q * 10 ^ p) : ℚ) / 10 ^ p

/-- Lexicographic strict order on lists of characters by code point,
matching Python string comparison. -/
def charListLt : List Char → List Char → Bool
  | [], [] => false
  | [], _ :: _ => true
  | _ :: _, [] => false
  | c :: cs, d :: ds =>
    if c < d then true
    else if d < c then false
    else charListLt cs ds

/-- Python `a < b` on strings: lexicographic comparison by code points. -/
def pyStrLt (a b : String) : Bool :=
  charListLt a.data b.data

/-! ## Data model (`src/backend/src/shared/models.py`) -/

/-- `RiotParticipant` dataclass: one player's record inside a match. -/
structure RiotParticipant where
  summoner_id : String
  champion_id : ℤ
  champion_name : String
  kills : ℤ
  deaths : ℤ
  assists : ℤ
  win : Bool
  game_duration : ℤ
  item0 : ℤ := 0
  item1 : ℤ := 0
  item2 : ℤ := 0
  item3 : ℤ := 0
  item4 : ℤ := 0
  item5 : ℤ := 0
  item6 : ℤ := 0
  total_damage_dealt : ℤ := 0
  gold_earned : ℤ := 0
  cs_total : ℤ := 0
deriving DecidableEq

/-- `RiotMatch` dataclass: one match with all its participants. -/
structure RiotMatch where
  match_id : String
  game_creation : ℤ
  game_duration : ℤ
  game_mode : String
  game_type : String
  queue_id : ℤ
  participants : List RiotParticipant
deriving DecidableEq

/-- `ChampionStat` dataclass: aggregated per-champion view. -/
structure ChampionStat where
  champion_id : ℤ
  champion_name : String
  games_played : ℤ
  wins : ℤ
  losses : ℤ
  win_rate : ℚ
  total_kills : ℤ
  total_deaths : ℤ
  total_assists : ℤ
  avg_kda : ℚ
  total_damage : ℤ
  total_gold : ℤ
  total_cs : ℤ
deriving DecidableEq

/-- `MonthlyData` dataclass: aggregated per-calendar-month view. -/
structure MonthlyData where
  month : String
  year : ℤ
  games : ℤ
  wins : ℤ
  losses : ℤ
  win_rate : ℚ
  total_kills : ℤ
  total_deaths : ℤ
  total_assists : ℤ
  avg_kda : ℚ
deriving DecidableEq

/-! ## Pure numeric helpers (`utils.py`) -/

/-- `calculate_kda` from `utils.py` lines 22-26. -/
def calculate_kda (kills deaths assists : ℤ) : ℚ :=
  if deaths = 0 then
    (if kills + assists > 0 then ((kills + assists : ℤ) : ℚ) else 0)
  else
    pyRound 2 (((kills + assists : ℤ) : ℚ) / (deaths : ℚ))

/-- `calculate_win_rate` from `utils.py` lines 29-33. -/
def calculate_win_rate (wins total_games : ℤ) : ℚ :=
  if total_games = 0 then 0
  else pyRound 2 (((wins : ℚ) / (total_games : ℚ)) * 100)

/-- The `month_names` table of `get_month_year_from_timestamp`. -/
def month_names : List String :=
  ["January", "February", "March", "April", "May", "June",
   "July", "August", "September", "October", "November", "December"]

/-- Proleptic-Gregorian civil date (year, month 1..12) from days since the Unix
epoch, modelling `datetime.fromtimestamp(-, tz=timezone.utc)`. Uses the
standard era-based algorithm with floor division. -/
def civilFromDays (z0 : ℤ) : ℤ × ℤ :=
  let z := z0 + 719468
  let era : ℤ := Int.fdiv z 146097
  let doe : ℤ := z - era * 146097
  let yoe : ℤ :=
    Int.fdiv (doe - Int.fdiv doe 1460 + Int.fdiv doe 36524 - Int.fdiv doe 146096) 365
  let y : ℤ := yoe + era * 400
  let doy : ℤ := doe - (365 * yoe + Int.fdiv yoe 4 - Int.fdiv yoe 100)
  let mp : ℤ := Int.fdiv (5 * doy + 2) 153
  let m : ℤ := mp + (if mp < 10 then 3 else -9)
  (y + (if m ≤ 2 then 1 else 0), m)

/-- `get_month_year_from_timestamp` from `utils.py` lines 36-43: millisecond
timestamp to (month name, year) in UTC. -/
def get_month_year_from_timestamp (timestamp : ℤ) : String × ℤ :=
  let days := Int.fdiv timestamp 86400000
  let ym := civilFromDays days
  (month_names.getD (ym.2 - 1).toNat "", ym.1)

/-! ## Stable sorting, Python style

`list.sort(key=k)` in Python is a stable sort. It is modelled by insertion
sort where `lt u v` means "u must come strictly before v"; elements are
inserted from the right, so equal-key elements keep their original order,
exactly as in CPython. `reverse=True` corresponds to the flipped strict key
comparison. -/

/-- Insert `x` into `l` after every element that must come strictly before
it and before the first element that need not. -/
def pyInsert {α : Type} (lt : α → α → Bool) (x : α) : List α → List α
  | [] => [x]
  | y :: ys => if lt y x then y :: pyInsert lt x ys else x :: y :: ys

/-- Stable sort with strict before-relation `lt`, modelling Python
`list.sort`. -/
def pySort {α : Type} (lt : α → α → Bool) (l : List α) : List α :=
  l.foldr (pyInsert lt) []

/-! ## The aggregation pass of `process_match_statistics` (`utils.py` 58-273)

Python dicts preserve insertion order, so the `champion_stats` and
`monthly_stats` dicts are modelled as association lists where a missing key
is appended at the end. -/

/-- Per-champion accumulator, the value type of the `champion_stats` dict. -/
structure ChampAgg where
  champion_name : String
  games : ℤ
  wins : ℤ
  kills : ℤ
  deaths : ℤ
  assists : ℤ
  damage : ℤ
  gold : ℤ
  cs : ℤ
deriving DecidableEq

/-- Per-month accumulator, the value type of the `monthly_stats` dict. -/
structure MonthAgg where
  month : String
  year : ℤ
  games : ℤ
  wins : ℤ
  kills : ℤ
  deaths : ℤ
  assists : ℤ
deriving DecidableEq

/-- Insertion-ordered dict update: `d.setdefault(k, init)` then mutate with
`f`. A new key is appended at the end, as in a Python dict. -/
def updateAssoc {κ ν : Type} [DecidableEq κ]
    (l : List (κ × ν)) (k : κ) (init : ν) (f : ν → ν) : List (κ × ν) :=
  match l with
  | [] => [(k, f init)]
  | (k', v) :: rest =>
    if k = k' then (k', f v) :: rest else (k', v) :: updateAssoc rest k init f

/-- The zero record inserted for a champion seen for the first time
(`utils.py` 120-131). -/
def champZero (p : RiotParticipant) : ChampAgg :=
  { champion_name := p.champion_name, games := 0, wins := 0, kills := 0,
    deaths := 0, assists := 0, damage := 0, gold := 0, cs := 0 }

/-- One match worth of champion accumulation (`utils.py` 133-142). -/
def champAdd (p : RiotParticipant) (c : ChampAgg) : ChampAgg :=
  { c with
    games := c.games + 1,
    wins := c.wins + (if p.win then 1 else 0),
    kills := c.kills + p.kills,
    deaths := c.deaths + p.deaths,
    assists := c.assists + p.assists,
    damage := c.damage + p.total_damage_dealt,
    gold := c.gold + p.gold_earned,
    cs := c.cs + p.cs_total }

/-- The zero record inserted for a month seen for the first time
(`utils.py` 148-157). -/
def monthZero (month : String) (year : ℤ) : MonthAgg :=
  { month := month, year := year, games := 0, wins := 0, kills := 0,
    deaths := 0, assists := 0 }

/-- One match worth of monthly accumulation (`utils.py` 159-165). -/
def monthAdd (p : RiotParticipant) (m : MonthAgg) : MonthAgg :=
  { m with
    games := m.games + 1,
    wins := m.wins + (if p.win then 1 else 0),
    kills := m.kills + p.kills,
    deaths := m.deaths + p.deaths,
    assists := m.assists + p.assists }

/-- Running accumulator state of the per-match loop. -/
structure AggState where
  total_wins : ℤ
  total_kills : ℤ
  total_deaths : ℤ
  total_assists : ℤ
  champion_stats : List (ℤ × ChampAgg)
  monthly_stats : List (String × MonthAgg)
deriving DecidableEq

/-- Initial accumulator state (`utils.py` 72-84). -/
def initAgg : AggState :=
  { total_wins := 0, total_kills := 0, total_deaths := 0, total_assists := 0,
    champion_stats := [], monthly_stats := [] }

/-- First participant whose `summoner_id` equals the target id
(`utils.py` 95-100). -/
def findParticipant (summoner_puuid : String) (m : RiotMatch) :
    Option RiotParticipant :=
  m.participants.find? (fun p => p.summoner_id == summoner_puuid)

/-- Whether the match features the target player (`utils.py` 168). -/
def hasTarget (summoner_puuid : String) (m : RiotMatch) : Bool :=
  m.participants.any (fun p => p.summoner_id == summoner_puuid)

/-- The body of the per-match loop (`utils.py` 88-165): a match without the
target participant is skipped; otherwise totals and both dicts are updated. -/
def processMatch (summoner_puuid : String) (st : AggState) (m : RiotMatch) :
    AggState :=
  match findParticipant summoner_puuid m with
  | none => st
  | some p =>
    let my := get_month_year_from_timestamp m.game_creation
    let month_key := toString my.2 ++ "-" ++ my.1
    { total_wins := st.total_wins + (if p.win then 1 else 0),
      total_kills := st.total_kills + p.kills,
      total_deaths := st.total_deaths + p.deaths,
      total_assists := st.total_assists + p.assists,
      champion_stats :=
        updateAssoc st.champion_stats p.champion_id (champZero p) (champAdd p),
      monthly_stats :=
        updateAssoc st.monthly_stats month_key (monthZero my.1 my.2)
          (monthAdd p) }

/-- The whole per-match loop of `process_match_statistics`. -/
def aggregate (ms : List RiotMatch) (summoner_puuid : String) : AggState :=
  ms.foldl (processMatch summoner_puuid) initAgg

/-! ## Report construction (`utils.py` 171-273) -/

/-- Build one `ChampionStat` from an accumulator entry (`utils.py` 180-196). -/
def mkChampionStat (cid : ℤ) (d : ChampAgg) : ChampionStat :=
  { champion_id := cid,
    champion_name := d.champion_name,
    games_played := d.games,
    wins := d.wins,
    losses := d.games - d.wins,
    win_rate := calculate_win_rate d.wins d.games,
    total_kills := d.kills,
    total_deaths := d.deaths,
    total_assists := d.assists,
    avg_kda := calculate_kda d.kills d.deaths d.assists,
    total_damage := d.damage,
    total_gold := d.gold,
    total_cs := d.cs }

/-- Build one `MonthlyData` from an accumulator entry (`utils.py` 203-216). -/
def mkMonthlyData (d : MonthAgg) : MonthlyData :=
  { month := d.month,
    year := d.year,
    games := d.games,
    wins := d.wins,
    losses := d.games - d.wins,
    win_rate := calculate_win_rate d.wins d.games,
    total_kills := d.kills,
    total_deaths := d.deaths,
    total_assists := d.assists,
    avg_kda := calculate_kda d.kills d.deaths d.assists }

/-- Strict before-relation of `sort(key=games_played, reverse=True)`
(`utils.py` 199). -/
def championBefore (a b : ChampionStat) : Bool :=
  b.games_played < a.games_played

/-- Strict before-relation of `sort(key=(year, month))` (`utils.py` 219):
lexicographic on the pair, the month component being the month NAME string. -/
def monthlyBefore (a b : MonthlyData) : Bool :=
  a.year < b.year || (a.year == b.year && pyStrLt a.month b.month)

/-- `calculate_improvement_trend` from `utils.py` 276-297. -/
def calculate_improvement_trend (monthly_data : List MonthlyData) : ℚ :=
  if monthly_data.length < 2 then 0
  else
    let y_values := monthly_data.map (fun d => d.avg_kda)
    let n : ℚ := (y_values.length : ℚ)
    let sum_x : ℚ := ((List.range y_values.length).map (fun (i : ℕ) => (i : ℚ))).sum
    let sum_y : ℚ := y_values.sum
    let sum_xy : ℚ := (y_values.enum.map (fun p => (p.1 : ℚ) * p.2)).sum
    let sum_x2 : ℚ :=
      ((List.range y_values.length).map (fun (i : ℕ) => (i : ℚ) * (i : ℚ))).sum
    let denominator := n * sum_x2 - sum_x * sum_x
    if denominator = 0 then 0
    else pyRound 3 ((n * sum_xy - sum_x * sum_y) / denominator)

/-- `calculate_consistency_score` from `utils.py` 300-318. -/
def calculate_consistency_score (monthly_data : List MonthlyData) : ℚ :=
  if monthly_data.length < 2 then 100
  else
    let kda_values := monthly_data.map (fun d => d.avg_kda)
    let mean_kda := kda_values.sum / (kda_values.length : ℚ)
    let variance :=
      (kda_values.map (fun kda => (kda - mean_kda) ^ 2)).sum /
        (kda_values.length : ℚ)
    if variance = 0 then 100
    else pyRound 1 (max 0 (100 - variance * 20))

/-- Python `max(l, key=f)`: the first element attaining the maximal key. -/
def maxByFirst {α : Type} (f : α → ℚ) : List α → Option α
  | [] => none
  | x :: xs => some (xs.foldl (fun best y => if f best < f y then y else best) x)

/-- The two `ValueError` sites of `process_match_statistics` (`utils.py` 67
and 172); the spec exposes both as `NoMatchesForPlayer`. -/
inductive ProcessError where
  | noMatchesProvided
  | noMatchesForSummoner
deriving DecidableEq

/-- The `ProcessedStats` report. The advisory analytics attached after
construction (`highlight_matches`, `champion_improvements`,
`behavioral_patterns` and the AI personality fields, `utils.py` 262-271)
are not modelled: no claim mentions them and they do not feed back into the
fields below. `summoner_name` is always `"Unknown Player"` and `region`
always `""` because `utils.py` never assigns either (lines 77-78, 243-244). -/
structure ProcessedStats where
  summoner_id : String
  summoner_name : String
  region : String
  total_games : ℤ
  total_wins : ℤ
  total_losses : ℤ
  win_rate : ℚ
  total_kills : ℤ
  total_deaths : ℤ
  total_assists : ℤ
  avg_kda : ℚ
  champion_stats : List ChampionStat
  monthly_trends : List MonthlyData
  most_played_champion : Option ChampionStat
  highest_winrate_champion : Option ChampionStat
  best_kda_champion : Option ChampionStat
  improvement_trend : ℚ
  consistency_score : ℚ
deriving DecidableEq

/-- Report assembly from the final accumulator state and the recomputed
`total_games` (`utils.py` 175-260). -/
def buildReport (summoner_puuid : String) (st : AggState) (total_games : ℤ) :
    ProcessedStats :=
  let win_rate := calculate_win_rate st.total_wins total_games
  let avg_kda := calculate_kda st.total_kills st.total_deaths st.total_assists
  let champion_stat_objects :=
    pySort championBefore
      (st.champion_stats.map (fun kv => mkChampionStat kv.1 kv.2))
  let monthly_data_objects :=
    pySort monthlyBefore (st.monthly_stats.map (fun kv => mkMonthlyData kv.2))
  let improvement_trend := calculate_improvement_trend monthly_data_objects
  let consistency_score := calculate_consistency_score monthly_data_objects
  { summoner_id := summoner_puuid,
    summoner_name := "Unknown Player",
    region := "",
    total_games := total_games,
    total_wins := st.total_wins,
    total_losses := total_games - st.total_wins,
    win_rate := win_rate,
    total_kills := st.total_kills,
    total_deaths := st.total_deaths,
    total_assists := st.total_assists,
    avg_kda := avg_kda,
    champion_stats := champion_stat_objects,
    monthly_trends := monthly_data_objects,
    most_played_champion := champion_stat_objects.head?,
    highest_winrate_champion :=
      maxByFirst (fun c => c.win_rate) champion_stat_objects,
    best_kda_champion :=
      maxByFirst (fun c => c.avg_kda) champion_stat_objects,
    improvement_trend := improvement_trend,
    consistency_score := consistency_score }

/-- `process_match_statistics` from `utils.py` 58-273. -/
def process_match_statistics (ms : List RiotMatch) (summoner_puuid : String) :
    Except ProcessError ProcessedStats :=
  if ms.isEmpty then .error .noMatchesProvided
  else
    let total_games : ℤ := ((ms.filter (hasTarget summoner_puuid)).length : ℤ)
    if total_games = 0 then .error .noMatchesForSummoner
    else .ok (buildReport summoner_puuid (aggregate ms summoner_puuid) total_games)

/-! ## Riot API client request pipeline (`riot_client.py`)

Time is modelled as an abstract rational clock value `now`, constant for
the duration of one `_make_request` call (sleeps for rate limiting and
backoff are real-time effects outside the shallow embedding; the cooldown
window is measured from the `now` of the call that opens the circuit).
The network is an oracle list of `HttpResponse`, consumed one element per
network call issued. -/

/-- Outcome of one network call as seen by `_make_request`. -/
inductive HttpResponse where
  | ok
  | notFound
  | forbidden
  | tooManyRequests (retryAfter : ℕ)
  | serverError (code : ℕ)
  | netError
deriving DecidableEq

/-- Errors surfaced by `_make_request`; `circuitOpen` is the
`RiotAPIError` raised by `_check_circuit_breaker`, `rateLimited` is
`RateLimitExceeded`, `requestFailed` the `RiotAPIError` after exhausted
retries, `summonerNotFound` and `forbidden` the 404/403 errors. -/
inductive RequestError where
  | circuitOpen
  | summonerNotFound
  | forbidden
  | rateLimited (retryAfter : ℕ)
  | requestFailed
  | maxRetriesExceeded
deriving DecidableEq

/-- Circuit-breaker state of the client instance (`riot_client.py` 100-104). -/
structure CBState where
  failure_count : ℕ
  circuit_open_until : ℚ
deriving DecidableEq

/-- `max_failures` (`riot_client.py` 103). -/
def maxFailures : ℕ := 5

/-- `circuit_timeout` in time units (`riot_client.py` 104). -/
def circuitTimeout : ℚ := 60

/-- Result of one `_make_request` call: outcome, number of network calls
issued, the list of 429 retry-after waits performed, and the circuit-breaker
state left behind. -/
instance {ε α : Type} [DecidableEq ε] [DecidableEq α] :
    DecidableEq (Except ε α) := fun a b =>
  match a, b with
  | .error e, .error f =>
    if h : e = f then .isTrue (by rw [h])
    else .isFalse (by intro hh; cases hh; exact h rfl)
  | .error _, .ok _ => .isFalse (by intro h; cases h)
  | .ok _, .error _ => .isFalse (by intro h; cases h)
  | .ok a, .ok b =>
    if h : a = b then .isTrue (by rw [h])
    else .isFalse (by intro hh; cases hh; exact h rfl)

structure ReqResult where
  result : Except RequestError Unit
  calls : ℕ
  rateWaits : List ℕ
  fc : ℕ
  openUntil : ℚ
deriving DecidableEq

/-- `_check_circuit_breaker` (`riot_client.py` 106-115): raise while the
circuit is open; reset counter and close once the timeout has expired. -/
def checkCircuitBreaker (s : CBState) (now : ℚ) : Except Unit CBState :=
  if s.circuit_open_until > now then .error ()
  else if s.circuit_open_until > 0 then .ok ⟨0, 0⟩
  else .ok s

/-- The `for attempt in range(max_retries)` loop of `_make_request`
(`riot_client.py` 126-174), one oracle response per attempt.

* 200: reset the failure counter, return the payload.
* 404: raise `SummonerNotFound` (counter untouched).
* 403: with a dynamically-fetched key on the first attempt, refresh the key
  and go to the next attempt; otherwise raise `Forbidden`.
* 429 (`_handle_rate_limit`, lines 176-181): sleep the retry-after duration,
  raise `RateLimitExceeded`; the handler in the loop re-raises on the last
  attempt and otherwise continues with the next attempt. No counter change.
* any other status or network exception: increment the failure counter,
  open the circuit for `circuitTimeout` when it reaches `maxFailures`,
  re-raise on the last attempt, otherwise back off and continue. -/
def attemptLoop (staticKey : Bool) (now : ℚ) (maxRetries : ℕ) :
    List HttpResponse → ℕ → ℕ → ℚ → ReqResult
  | [], _, fc, openUntil => ⟨.error .maxRetriesExceeded, 0, [], fc, openUntil⟩
  | r :: rest, attempt, fc, openUntil =>
    if attempt ≥ maxRetries then ⟨.error .maxRetriesExceeded, 0, [], fc, openUntil⟩
    else
      match r with
      | .ok => ⟨.ok (), 1, [], 0, openUntil⟩
      | .notFound => ⟨.error .summonerNotFound, 1, [], fc, openUntil⟩
      | .forbidden =>
        if !staticKey && attempt = 0 then
          let res := attemptLoop staticKey now maxRetries rest (attempt + 1) fc openUntil
          ⟨res.result, res.calls + 1, res.rateWaits, res.fc, res.openUntil⟩
        else ⟨.error .forbidden, 1, [], fc, openUntil⟩
      | .tooManyRequests ra =>
        if attempt = maxRetries - 1 then
          ⟨.error (.rateLimited ra), 1, [ra], fc, openUntil⟩
        else
          let res := attemptLoop staticKey now maxRetries rest (attempt + 1) fc openUntil
          ⟨res.result, res.calls + 1, ra :: res.rateWaits, res.fc, res.openUntil⟩
      | .serverError _ | .netError =>
        let fc1 := fc + 1
        let ou1 := if fc1 ≥ maxFailures then now + circuitTimeout else openUntil
        if attempt = maxRetries - 1 then
          ⟨.error .requestFailed, 1, [], fc1, ou1⟩
        else
          let res := attemptLoop staticKey now maxRetries rest (attempt + 1) fc1 ou1
          ⟨res.result, res.calls + 1, res.rateWaits, res.fc, res.openUntil⟩

/-- `_make_request` (`riot_client.py` 117-174) with the default
`max_retries = 3`: circuit-breaker check, then the attempt loop. -/
def makeRequest (s : CBState) (now : ℚ) (staticKey : Bool)
    (responses : List HttpResponse) (maxRetries : ℕ := 3) : ReqResult :=
  match checkCircuitBreaker s now with
  | .error _ => ⟨.error .circuitOpen, 0, [], s.failure_count, s.circuit_open_until⟩
  | .ok s1 => attemptLoop staticKey now maxRetries responses 0 s1.failure_count
      s1.circuit_open_until

/-! ## Match-history paging loop (`riot_client.py` 345-404)

NOTE: the source of `get_full_match_history_with_time` contains a duplicated
preamble (`while True:` at line 356 immediately followed by a dedented
re-initialization at lines 358-360, an indentation slip); the effective loop
body is lines 362-404 and is what is modelled here. Each page is the batch
of match ids returned by one `get_match_history` call; for each id,
`get_match_details` either yields a match (`some`) or raises and is skipped
(`none`, lines 388-390). -/

/-- The `while True` paging loop: stop on an empty page, on a short page
(fewer ids than `batch_size = 100`), or once at least 1000 matches have
accumulated; the 1000 check runs only after a full page was consumed. -/
def fetchLoop : List (List (Option RiotMatch)) → List RiotMatch → List RiotMatch
  | [], acc => acc
  | page :: rest, acc =>
    if page.isEmpty then acc
    else
      let acc1 := acc ++ page.filterMap id
      if page.length < 100 then acc1
      else if acc1.length ≥ 1000 then acc1
      else fetchLoop rest acc1

/-- `get_full_match_history_with_time`, reduced to its accumulation
behaviour over the page oracle. -/
def get_full_match_history_with_time
    (pages : List (List (Option RiotMatch))) : List RiotMatch :=
  fetchLoop pages []

/-! ## Specification-side definitions

Independent renderings of the spec's wording for the refinement claims about
the consistency score and the improvement trend, to be compared against the
source-derived `calculate_consistency_score` / `calculate_improvement_trend`. -/

/-- Arithmetic mean of a list, as the spec words it. -/
def meanSpec (xs : List ℚ) : ℚ := xs.sum / (xs.length : ℚ)

/-- Population variance of a list, as the spec words it. -/
def varianceSpec (xs : List ℚ) : ℚ :=
  (xs.map (fun x => (x - meanSpec xs) ^ 2)).sum / (xs.length : ℚ)

/-- Consistency score as the spec words it: 100 minus (variance of the
monthly KDA values times 20), clamped to the interval [0, 100], rounded to
1 decimal place; fewer than 2 entries give 100. -/
def consistencyScoreSpec (l : List MonthlyData) : ℚ :=
  if l.length < 2 then 100
  else
    pyRound 1
      (min (max (100 - varianceSpec (l.map (fun d => d.avg_kda)) * 20) 0) 100)

/-- Ordinary least-squares slope of `ys` regressed against the indices
0, 1, 2, ..., in the centered covariance-over-variance form. -/
def olsSlopeSpec (ys : List ℚ) : ℚ :=
  let xbar := meanSpec ((List.range ys.length).map (fun (i : ℕ) => (i : ℚ)))
  let ybar := meanSpec ys
  (ys.enum.map (fun p => ((p.1 : ℚ) - xbar) * (p.2 - ybar))).sum /
    ((List.range ys.length).map (fun (i : ℕ) => ((i : ℚ) - xbar) ^ 2)).sum

/-- Improvement trend as the spec words it: the OLS slope of the monthly KDA
values against the month index, rounded to 3 decimal places; fewer than 2
entries give 0. -/
def improvementTrendSpec (l : List MonthlyData) : ℚ :=
  if l.length < 2 then 0
  else pyRound 3 (olsSlopeSpec (l.map (fun d => d.avg_kda)))

/-! ## Concrete fixtures for evaluations -/

/-- A winning participation of player `"p"` (8/3/12 on champion 1). -/
def fxPJan : RiotParticipant :=
  { summoner_id := "p", champion_id := 1, champion_name := "Ahri",
    kills := 8, deaths := 3, assists := 12, win := true, game_duration := 1800 }

/-- A losing participation of player `"p"` (5/7/8 on champion 2). -/
def fxPFeb : RiotParticipant :=
  { summoner_id := "p", champion_id := 2, champion_name := "Zed",
    kills := 5, deaths := 7, assists := 8, win := false, game_duration := 1800 }

/-- A match of player `"p"` created on 2023-01-15 UTC. -/
def fxMatchJan : RiotMatch :=
  { match_id := "m1", game_creation := 1673740800000, game_duration := 1800,
    game_mode := "CLASSIC", game_type := "MATCHED_GAME", queue_id := 420,
    participants := [fxPJan] }

/-- A match of player `"p"` created on 2023-02-15 UTC. -/
def fxMatchFeb : RiotMatch :=
  { match_id := "m2", game_creation := 1676419200000, game_duration := 1800,
    game_mode := "CLASSIC", game_type := "MATCHED_GAME", queue_id := 420,
    participants := [fxPFeb] }

/-- A match created on 2023-01-15 UTC in which player `"p"` does not appear. -/
def fxMatchNoP : RiotMatch :=
  { match_id := "m3", game_creation := 1673740800000, game_duration := 1800,
    game_mode := "CLASSIC", game_type := "MATCHED_GAME", queue_id := 420,
    participants := [{ fxPJan with summoner_id := "q" }] }

/-- The report computed for player `"p"` from the two fixture matches. -/
def fxReport : ProcessedStats :=
  buildReport "p" (aggregate [fxMatchJan, fxMatchFeb] "p") 2

/-! # Theorems -/

/-- C2: for all integers, `calculate_kda` returns the 2-decimal rounding of
`(kills+assists)/deaths` when `deaths > 0`, returns `kills+assists` when
`deaths = 0` and `kills+assists > 0`, and returns 0 when `deaths = 0` and
`kills+assists = 0`. -/
theorem calculate_kda_cases (kills deaths assists : ℤ) :
    (0 < deaths →
      calculate_kda kills deaths assists =
        pyRound 2 (((kills + assists : ℤ) : ℚ) / ((deaths : ℤ) : ℚ))) ∧
    (deaths = 0 → 0 < kills + assists →
      calculate_kda kills deaths assists = ((kills + assists : ℤ) : ℚ)) ∧
    (deaths = 0 → kills + assists = 0 →
      calculate_kda kills deaths assists = 0) := by
  refine ⟨fun h => ?_, fun h h1 => ?_, fun h h1 => ?_⟩
  · have hne : deaths ≠ 0 := by omega
    simp [calculate_kda, hne]
  · simp [calculate_kda, h, h1]
  · simp [calculate_kda, h, h1]

/-- Spot check of `calculate_kda_cases` at (8, 3, 12), (5, 0, 0), (0, 0, 0). -/
theorem calculate_kda_cases_spot :
    calculate_kda 8 3 12 = pyRound 2 (((8 + 12 : ℤ) : ℚ) / ((3 : ℤ) : ℚ)) ∧
    calculate_kda 5 0 0 = ((5 + 0 : ℤ) : ℚ) ∧
    calculate_kda 0 0 0 = 0 :=
  ⟨(calculate_kda_cases 8 3 12).1 (by norm_num),
   (calculate_kda_cases 5 0 0).2.1 rfl (by norm_num),
   (calculate_kda_cases 0 0 0).2.2 rfl rfl⟩

/-- C1 (code bug at `utils.py` 219): feeding one January 2023 match and one
February 2023 match of the same player yields a monthly trend list ordered
February before January. The sort key is `(year, month)` where `month` is
the month NAME, so within a year months are ordered alphabetically
("February" < "January"), contradicting the chronological order required by
the spec and by the comment directly above the sort (`utils.py` 218). -/
theorem monthly_trends_sorted_by_name_not_chronology :
    (process_match_statistics [fxMatchJan, fxMatchFeb] "p").toOption.map
        (fun s => s.monthly_trends.map (fun d => (d.year, d.month))) =
      some [(2023, "February"), (2023, "January")] := by
  decide

theorem findParticipant_eq_none_iff (pu : String) (m : RiotMatch) :
    findParticipant pu m = none ↔ hasTarget pu m = false := by
  unfold findParticipant hasTarget
  induction m.participants with
  | nil => simp
  | cons p ps ih =>
    by_cases h : p.summoner_id == pu <;>
      simp [List.find?_cons, List.any_cons, h, ih]

theorem processMatch_skip (pu : String) (st : AggState) (m : RiotMatch)
    (h : hasTarget pu m = false) : processMatch pu st m = st := by
  unfold processMatch
  rw [(findParticipant_eq_none_iff pu m).mpr h]

theorem foldl_processMatch_filter (pu : String) :
    ∀ (ms : List RiotMatch) (st : AggState),
      List.foldl (processMatch pu) st ms =
        List.foldl (processMatch pu) st (ms.filter (hasTarget pu))
  | [], _ => rfl
  | m :: ms, st => by
    cases h : hasTarget pu m with
    | true =>
      simp only [List.foldl_cons, List.filter_cons, h, if_pos]
      exact foldl_processMatch_filter pu ms (processMatch pu st m)
    | false =>
      simp only [List.foldl_cons, List.filter_cons, h, Bool.false_eq_true,
        if_neg, processMatch_skip pu st m h]
      exact foldl_processMatch_filter pu ms st

theorem aggregate_filter (ms : List RiotMatch) (pu : String) :
    aggregate ms pu = aggregate (ms.filter (hasTarget pu)) pu :=
  foldl_processMatch_filter pu ms initAgg

/-- C4: `process_match_statistics` fails (with one of the two `ValueError`s
the spec exposes as `NoMatchesForPlayer`) exactly when the match list is
empty or no match features the target player; in every other case it
returns a report. -/
theorem process_match_statistics_error_iff (ms : List RiotMatch) (pu : String) :
    ((∃ e, process_match_statistics ms pu = .error e) ↔
      ms = [] ∨ ms.filter (hasTarget pu) = []) ∧
    (¬(ms = [] ∨ ms.filter (hasTarget pu) = []) →
      ∃ s, process_match_statistics ms pu = .ok s) := by
  unfold process_match_statistics
  by_cases h1 : ms.isEmpty
  · have h : ms = [] := List.isEmpty_iff.mp h1
    subst h
    simp
  · have hne : ms ≠ [] := by simpa [List.isEmpty_iff] using h1
    by_cases h2 : ((ms.filter (hasTarget pu)).length : ℤ) = 0
    · have h : ms.filter (hasTarget pu) = [] := by
        rw [Int.natCast_eq_zero] at h2
        exact List.length_eq_zero.mp h2
      simp [h1, h2, hne, h]
    · have h : ms.filter (hasTarget pu) ≠ [] := by
        intro hh
        rw [hh] at h2
        exact h2 rfl
      simp [h1, h2, hne, h]

/-- Spot check of `process_match_statistics_error_iff`: the empty list
fails, a singleton list featuring the target succeeds. -/
theorem process_match_statistics_error_iff_spot :
    (∃ e, process_match_statistics ([] : List RiotMatch) "p" = .error e) ∧
    (∃ s, process_match_statistics [fxMatchJan] "p" = .ok s) :=
  ⟨(process_match_statistics_error_iff [] "p").1.mpr (Or.inl rfl),
   (process_match_statistics_error_iff [fxMatchJan] "p").2 (by decide)⟩

/-- C3: a match not featuring the target player contributes nothing:
`total_games` counts exactly the matches featuring the target, and the
whole report equals the one computed from the featuring matches alone. -/
theorem process_match_statistics_skips (ms : List RiotMatch) (pu : String)
    (s : ProcessedStats) (h : process_match_statistics ms pu = .ok s) :
    s.total_games = ((ms.filter (hasTarget pu)).length : ℤ) ∧
    process_match_statistics (ms.filter (hasTarget pu)) pu = .ok s := by
  unfold process_match_statistics at h
  by_cases h1 : ms.isEmpty
  · simp [h1] at h
  · by_cases h2 : ((ms.filter (hasTarget pu)).length : ℤ) = 0
    · simp [h1, h2] at h
    · simp only [h1, Bool.false_eq_true, if_neg, if_false, h2, if_true,
        Except.ok.injEq] at h
      refine ⟨?_, ?_⟩
      · rw [← h]
        rfl
      · have hfil : (ms.filter (hasTarget pu)).filter (hasTarget pu) =
            ms.filter (hasTarget pu) := by
          apply List.filter_eq_self.mpr
          intro a ha
          exact (List.mem_filter.mp ha).2
        have hfe : ¬(ms.filter (hasTarget pu)).isEmpty = true := by
          intro he
          rw [List.isEmpty_iff.mp he] at h2
          exact h2 rfl
        unfold process_match_statistics
        simp only [hfe, if_neg, if_false, hfil, h2, if_true, ← aggregate_filter, h]
        rfl

/-- Spot check of `process_match_statistics_skips`: of two matches, one not
featuring player `"p"`, only one is counted and the report equals the one
computed from the featuring match alone. -/
theorem process_match_statistics_skips_spot :
    (buildReport "p" (aggregate [fxMatchJan, fxMatchNoP] "p") 1).total_games =
      (([fxMatchJan, fxMatchNoP].filter (hasTarget "p")).length : ℤ) ∧
    process_match_statistics ([fxMatchJan, fxMatchNoP].filter (hasTarget "p"))
        "p" =
      .ok (buildReport "p" (aggregate [fxMatchJan, fxMatchNoP] "p") 1) :=
  process_match_statistics_skips [fxMatchJan, fxMatchNoP] "p" _ (by rfl)

theorem mem_pyInsert {α : Type} (lt : α → α → Bool) (x y : α) :
    ∀ l : List α, y ∈ pyInsert lt x l ↔ y = x ∨ y ∈ l
  | [] => by simp [pyInsert]
  | z :: zs => by
    by_cases h : lt z x
    · simp [pyInsert, h, mem_pyInsert lt x y zs]
      tauto
    · simp [pyInsert, h]

theorem mem_pySort {α : Type} (lt : α → α → Bool) (y : α) :
    ∀ l : List α, y ∈ pySort lt l ↔ y ∈ l
  | [] => Iff.rfl
  | z :: zs => by
    show y ∈ pyInsert lt z (pySort lt zs) ↔ _
    rw [mem_pyInsert lt z y (pySort lt zs), mem_pySort lt y zs]
    simp

theorem sum_map_pyInsert {α : Type} (lt : α → α → Bool) (f : α → ℤ) (x : α) :
    ∀ l : List α, ((pyInsert lt x l).map f).sum = f x + (l.map f).sum
  | [] => by simp [pyInsert]
  | z :: zs => by
    by_cases h : lt z x
    · simp [pyInsert, h, sum_map_pyInsert lt f x zs]
      ring
    · simp [pyInsert, h]

theorem sum_map_pySort {α : Type} (lt : α → α → Bool) (f : α → ℤ) :
    ∀ l : List α, ((pySort lt l).map f).sum = (l.map f).sum
  | [] => rfl
  | z :: zs => by
    show ((pyInsert lt z (pySort lt zs)).map f).sum = _
    rw [sum_map_pyInsert lt f z (pySort lt zs), sum_map_pySort lt f zs]
    simp

theorem sum_updateAssoc {κ ν : Type} [DecidableEq κ] (g : ν → ℤ)
    (k : κ) (init : ν) (f : ν → ν) (d : ℤ)
    (hf : ∀ v, g (f v) = g v + d) (hz : g init = 0) :
    ∀ l : List (κ × ν),
      ((updateAssoc l k init f).map (fun kv => g kv.2)).sum =
        (l.map (fun kv => g kv.2)).sum + d
  | [] => by simp [updateAssoc, hf, hz]
  | (k', v) :: rest => by
    by_cases h : k = k'
    · simp [updateAssoc, h, hf]
      ring
    · simp [updateAssoc, h, sum_updateAssoc g k init f d hf hz rest]
      ring

theorem hasTarget_of_findParticipant (pu : String) (m : RiotMatch)
    (p : RiotParticipant) (hfp : findParticipant pu m = some p) :
    hasTarget pu m = true := by
  cases h2 : hasTarget pu m
  · rw [(findParticipant_eq_none_iff pu m).mpr h2] at hfp
    cases hfp
  · rfl

theorem champ_games_sum_foldl (pu : String) :
    ∀ (ms : List RiotMatch) (st : AggState),
      ((List.foldl (processMatch pu) st ms).champion_stats.map
          (fun kv => kv.2.games)).sum =
        (st.champion_stats.map (fun kv => kv.2.games)).sum +
          ((ms.filter (hasTarget pu)).length : ℤ)
  | [], st => by simp
  | m :: ms, st => by
    cases hfp : findParticipant pu m with
    | none =>
      have hT := (findParticipant_eq_none_iff pu m).mp hfp
      simp only [List.foldl_cons, processMatch_skip pu st m hT,
        List.filter_cons, hT, Bool.false_eq_true, if_false,
        champ_games_sum_foldl pu ms st]
    | some p =>
      have hT := hasTarget_of_findParticipant pu m p hfp
      have hupd : ((processMatch pu st m).champion_stats.map
          (fun kv => kv.2.games)).sum =
          (st.champion_stats.map (fun kv => kv.2.games)).sum + 1 := by
        simp only [processMatch, hfp]
        apply sum_updateAssoc
        · exact fun v => rfl
        · rfl
      simp only [List.foldl_cons, List.filter_cons, hT, if_true,
        champ_games_sum_foldl pu ms (processMatch pu st m), hupd,
        List.length_cons]
      push_cast
      ring

theorem month_games_sum_foldl (pu : String) :
    ∀ (ms : List RiotMatch) (st : AggState),
      ((List.foldl (processMatch pu) st ms).monthly_stats.map
          (fun kv => kv.2.games)).sum =
        (st.monthly_stats.map (fun kv => kv.2.games)).sum +
          ((ms.filter (hasTarget pu)).length : ℤ)
  | [], st => by simp
  | m :: ms, st => by
    cases hfp : findParticipant pu m with
    | none =>
      have hT := (findParticipant_eq_none_iff pu m).mp hfp
      simp only [List.foldl_cons, processMatch_skip pu st m hT,
        List.filter_cons, hT, Bool.false_eq_true, if_false,
        month_games_sum_foldl pu ms st]
    | some p =>
      have hT := hasTarget_of_findParticipant pu m p hfp
      have hupd : ((processMatch pu st m).monthly_stats.map
          (fun kv => kv.2.games)).sum =
          (st.monthly_stats.map (fun kv => kv.2.games)).sum + 1 := by
        simp only [processMatch, hfp]
        apply sum_updateAssoc
        · exact fun v => rfl
        · rfl
      simp only [List.foldl_cons, List.filter_cons, hT, if_true,
        month_games_sum_foldl pu ms (processMatch pu st m), hupd,
        List.length_cons]
      push_cast
      ring

/-- C10: every report is internally consistent: per-entry losses equal games
minus wins, total losses equal total games minus total wins, and the games
of the champion entries and of the monthly entries each sum to
`total_games`. -/
theorem report_internally_consistent (ms : List RiotMatch) (pu : String)
    (s : ProcessedStats) (h : process_match_statistics ms pu = .ok s) :
    (∀ c ∈ s.champion_stats, c.losses = c.games_played - c.wins) ∧
    (∀ d ∈ s.monthly_trends, d.losses = d.games - d.wins) ∧
    s.total_losses = s.total_games - s.total_wins ∧
    (s.champion_stats.map (fun c => c.games_played)).sum = s.total_games ∧
    (s.monthly_trends.map (fun d => d.games)).sum = s.total_games := by
  unfold process_match_statistics at h
  by_cases h1 : ms.isEmpty
  · simp [h1] at h
  · by_cases h2 : ((ms.filter (hasTarget pu)).length : ℤ) = 0
    · simp [h1, h2] at h
    · simp only [h1, Bool.false_eq_true, if_false, h2, if_true,
        Except.ok.injEq] at h
      subst h
      refine ⟨?_, ?_, rfl, ?_, ?_⟩
      · intro c hc
        simp only [buildReport] at hc
        rw [mem_pySort] at hc
        obtain ⟨kv, hkv, rfl⟩ := List.mem_map.mp hc
        rfl
      · intro d hd
        simp only [buildReport] at hd
        rw [mem_pySort] at hd
        obtain ⟨kv, hkv, rfl⟩ := List.mem_map.mp hd
        rfl
      · simp only [buildReport]
        rw [sum_map_pySort, List.map_map]
        have hinv := champ_games_sum_foldl pu ms initAgg
        simp only [initAgg, List.map_nil, List.sum_nil, zero_add] at hinv
        simpa [aggregate, Function.comp, mkChampionStat] using hinv
      · simp only [buildReport]
        rw [sum_map_pySort, List.map_map]
        have hinv := month_games_sum_foldl pu ms initAgg
        simp only [initAgg, List.map_nil, List.sum_nil, zero_add] at hinv
        simpa [aggregate, Function.comp, mkMonthlyData] using hinv

/-- Spot check of `report_internally_consistent` on the two fixture
matches. -/
theorem report_internally_consistent_spot :
    (∀ c ∈ fxReport.champion_stats, c.losses = c.games_played - c.wins) ∧
    (∀ d ∈ fxReport.monthly_trends, d.losses = d.games - d.wins) ∧
    fxReport.total_losses = fxReport.total_games - fxReport.total_wins ∧
    (fxReport.champion_stats.map (fun c => c.games_played)).sum =
      fxReport.total_games ∧
    (fxReport.monthly_trends.map (fun d => d.games)).sum =
      fxReport.total_games :=
  report_internally_consistent [fxMatchJan, fxMatchFeb] "p" fxReport (by rfl)

theorem roundHalfEven_intCast (n : ℤ) : roundHalfEven ((n : ℤ) : ℚ) = n := by
  unfold roundHalfEven
  norm_num

theorem pyRound_one_hundred : pyRound 1 (100 : ℚ) = 100 := by
  unfold pyRound
  rw [show ((100 : ℚ) * 10 ^ (1 : ℕ)) = (((1000 : ℤ) : ℤ) : ℚ) by norm_num,
    roundHalfEven_intCast]
  norm_num

/-- C5: the consistency score equals 100 minus 20 times the population
variance of the monthly KDA values, clamped to [0, 100] and rounded to 1
decimal place; fewer than 2 entries give 100. -/
theorem consistency_score_eq_spec (l : List MonthlyData) :
    calculate_consistency_score l = consistencyScoreSpec l := by
  unfold calculate_consistency_score consistencyScoreSpec varianceSpec meanSpec
  by_cases h : l.length < 2
  · simp [h]
  · simp only [h, if_false]
    set xs := l.map (fun d => d.avg_kda) with hxs
    set m : ℚ := xs.sum / (xs.length : ℚ) with hm
    set v : ℚ := (xs.map (fun x => (x - m) ^ 2)).sum / (xs.length : ℚ) with hv
    have hlpos : (0 : ℚ) ≤ (xs.length : ℚ) := by positivity
    have hvnn : 0 ≤ v := by
      rw [hv]
      apply div_nonneg _ hlpos
      apply List.sum_nonneg
      intro x hx
      obtain ⟨y, hy, rfl⟩ := List.mem_map.mp hx
      positivity
    by_cases hv0 : v = 0
    · rw [if_pos hv0, hv0]
      norm_num
      rw [pyRound_one_hundred]
    · rw [if_neg hv0]
      congr 1
      rw [max_comm, min_eq_left]
      apply max_le _ (by norm_num)
      nlinarith

theorem sum_range_cast (n : ℕ) :
    ((List.range n).map (fun (i : ℕ) => (i : ℚ))).sum = n * (n - 1) / 2 := by
  induction n with
  | zero => simp
  | succ k ih =>
    rw [List.range_succ, List.map_append, List.sum_append, ih]
    simp only [List.map_cons, List.map_nil, List.sum_cons, List.sum_nil, add_zero]
    push_cast
    ring

theorem sum_range_cast_sq (n : ℕ) :
    ((List.range n).map (fun (i : ℕ) => (i : ℚ) * (i : ℚ))).sum =
      n * (n - 1) * (2 * n - 1) / 6 := by
  induction n with
  | zero => simp
  | succ k ih =>
    rw [List.range_succ, List.map_append, List.sum_append, ih]
    simp only [List.map_cons, List.map_nil, List.sum_cons, List.sum_nil, add_zero]
    push_cast
    ring

theorem pair_sum_expand (a b : ℚ) :
    ∀ ps : List (ℕ × ℚ),
      (ps.map (fun p => ((p.1 : ℚ) - a) * (p.2 - b))).sum =
        (ps.map (fun p => (p.1 : ℚ) * p.2)).sum -
          b * (ps.map (fun p => (p.1 : ℚ))).sum -
          a * (ps.map (fun p => p.2)).sum + ps.length * (a * b)
  | [] => by simp
  | q :: ps => by
    simp only [List.map_cons, List.sum_cons, pair_sum_expand a b ps,
      List.length_cons]
    push_cast
    ring

theorem sq_sum_expand (a : ℚ) :
    ∀ l : List ℚ,
      (l.map (fun x => (x - a) ^ 2)).sum =
        (l.map (fun x => x * x)).sum - 2 * a * l.sum + l.length * a ^ 2
  | [] => by simp
  | x :: xs => by
    simp only [List.map_cons, List.sum_cons, sq_sum_expand a xs,
      List.length_cons]
    push_cast
    ring

theorem enum_fst_sum (ys : List ℚ) :
    (ys.enum.map (fun p => (p.1 : ℚ))).sum =
      ((List.range ys.length).map (fun (i : ℕ) => (i : ℚ))).sum := by
  have h : ys.enum.map (fun p => (p.1 : ℚ)) =
      (ys.enum.map Prod.fst).map (fun (i : ℕ) => (i : ℚ)) := by
    rw [List.map_map]
    rfl
  rw [h, List.enum_map_fst]

theorem enum_snd_sum (ys : List ℚ) :
    (ys.enum.map (fun p => p.2)).sum = ys.sum := by
  have h : ys.enum.map (fun p => p.2) = ys.enum.map Prod.snd := rfl
  rw [h, List.enum_map_snd]

/-- C6: the improvement trend equals the ordinary least-squares slope of the
monthly KDA values against the month index 0, 1, 2, ..., rounded to 3
decimal places; fewer than 2 entries give 0. -/
theorem improvement_trend_eq_spec (l : List MonthlyData) :
    calculate_improvement_trend l = improvementTrendSpec l := by
  unfold calculate_improvement_trend improvementTrendSpec olsSlopeSpec meanSpec
  by_cases h : l.length < 2
  · simp [h]
  · simp only [h, if_false, List.length_map, List.length_range]
    set ys := l.map (fun d => d.avg_kda) with hys
    have hyl : ys.length = l.length := by
      rw [hys]
      exact List.length_map _ _
    have hlen2 : 2 ≤ l.length := by omega
    set nq : ℚ := (l.length : ℚ) with hnq
    set S1 : ℚ := ((List.range l.length).map (fun (i : ℕ) => (i : ℚ))).sum
      with hS1
    set S2 : ℚ :=
      ((List.range l.length).map (fun (i : ℕ) => (i : ℚ) * (i : ℚ))).sum
      with hS2
    set Sy : ℚ := ys.sum with hSy
    set Sxy : ℚ := (ys.enum.map (fun p => (p.1 : ℚ) * p.2)).sum with hSxy
    have hnpos : (0 : ℚ) < nq := by
      rw [hnq]
      exact_mod_cast (by omega : 0 < l.length)
    have hnq0 : nq ≠ 0 := ne_of_gt hnpos
    have hq2 : (2 : ℚ) ≤ nq := by
      rw [hnq]
      exact_mod_cast hlen2
    have hD : nq * S2 - S1 * S1 ≠ 0 := by
      have hs1 : S1 = nq * (nq - 1) / 2 := by rw [hS1, sum_range_cast, hnq]
      have hs2 : S2 = nq * (nq - 1) * (2 * nq - 1) / 6 := by
        rw [hS2, sum_range_cast_sq, hnq]
      have hform : nq * S2 - S1 * S1 = nq ^ 2 * (nq - 1) * (nq + 1) / 12 := by
        rw [hs1, hs2]
        ring
      rw [hform]
      have h1 : 0 < nq ^ 2 := by positivity
      have h2 : 0 < nq - 1 := by linarith
      have h3 : 0 < nq + 1 := by linarith
      exact ne_of_gt (div_pos (mul_pos (mul_pos h1 h2) h3) (by norm_num))
    rw [if_neg hD]
    congr 1
    have hcov : (ys.enum.map
          (fun p => ((p.1 : ℚ) - S1 / nq) * (p.2 - Sy / nq))).sum =
        Sxy - Sy / nq * S1 - S1 / nq * Sy + nq * (S1 / nq * (Sy / nq)) := by
      rw [pair_sum_expand (S1 / nq) (Sy / nq) ys.enum, enum_fst_sum,
        enum_snd_sum, List.enum_length, hyl, ← hS1, ← hSxy, ← hSy, ← hnq]
    have hmm : (List.range l.length).map
          (fun (i : ℕ) => ((i : ℚ) - S1 / nq) ^ 2) =
        ((List.range l.length).map (fun (i : ℕ) => (i : ℚ))).map
          (fun x => (x - S1 / nq) ^ 2) := by
      rw [List.map_map]
      rfl
    have hvar : ((List.range l.length).map
          (fun (i : ℕ) => ((i : ℚ) - S1 / nq) ^ 2)).sum =
        S2 - 2 * (S1 / nq) * S1 + nq * (S1 / nq) ^ 2 := by
      rw [hmm, sq_sum_expand]
      have h2e : (((List.range l.length).map (fun (i : ℕ) => (i : ℚ))).map
          (fun x => x * x)).sum = S2 := by
        rw [List.map_map, hS2]
        rfl
      rw [h2e, List.length_map, List.length_range, ← hS1, ← hnq]
    rw [hcov, hvar]
    have hVne : S2 - 2 * (S1 / nq) * S1 + nq * (S1 / nq) ^ 2 ≠ 0 := by
      have hform : S2 - 2 * (S1 / nq) * S1 + nq * (S1 / nq) ^ 2 =
          (nq * S2 - S1 * S1) / nq := by
        field_simp
        ring
      rw [hform]
      exact div_ne_zero hD hnq0
    rw [div_eq_div_iff hD hVne]
    field_simp
    ring

theorem attemptLoop_nil (staticKey : Bool) (now : ℚ) (maxRetries : ℕ)
    (attempt fc : ℕ) (ou : ℚ) :
    attemptLoop staticKey now maxRetries [] attempt fc ou =
      ⟨.error .maxRetriesExceeded, 0, [], fc, ou⟩ := rfl

theorem attemptLoop_ok (staticKey : Bool) (now : ℚ) (maxRetries : ℕ)
    (rest : List HttpResponse) (attempt fc : ℕ) (ou : ℚ) :
    attemptLoop staticKey now maxRetries (.ok :: rest) attempt fc ou =
      if attempt ≥ maxRetries then ⟨.error .maxRetriesExceeded, 0, [], fc, ou⟩
      else ⟨.ok (), 1, [], 0, ou⟩ := rfl

theorem attemptLoop_notFound (staticKey : Bool) (now : ℚ) (maxRetries : ℕ)
    (rest : List HttpResponse) (attempt fc : ℕ) (ou : ℚ) :
    attemptLoop staticKey now maxRetries (.notFound :: rest) attempt fc ou =
      if attempt ≥ maxRetries then ⟨.error .maxRetriesExceeded, 0, [], fc, ou⟩
      else ⟨.error .summonerNotFound, 1, [], fc, ou⟩ := rfl

theorem attemptLoop_forbidden (staticKey : Bool) (now : ℚ) (maxRetries : ℕ)
    (rest : List HttpResponse) (attempt fc : ℕ) (ou : ℚ) :
    attemptLoop staticKey now maxRetries (.forbidden :: rest) attempt fc ou =
      if attempt ≥ maxRetries then ⟨.error .maxRetriesExceeded, 0, [], fc, ou⟩
      else if !staticKey && attempt = 0 then
        let res := attemptLoop staticKey now maxRetries rest (attempt + 1) fc ou
        ⟨res.result, res.calls + 1, res.rateWaits, res.fc, res.openUntil⟩
      else ⟨.error .forbidden, 1, [], fc, ou⟩ := rfl

theorem attemptLoop_tooMany (staticKey : Bool) (now : ℚ) (maxRetries : ℕ)
    (ra : ℕ) (rest : List HttpResponse) (attempt fc : ℕ) (ou : ℚ) :
    attemptLoop staticKey now maxRetries (.tooManyRequests ra :: rest)
        attempt fc ou =
      if attempt ≥ maxRetries then ⟨.error .maxRetriesExceeded, 0, [], fc, ou⟩
      else if attempt = maxRetries - 1 then
        ⟨.error (.rateLimited ra), 1, [ra], fc, ou⟩
      else
        let res := attemptLoop staticKey now maxRetries rest (attempt + 1) fc ou
        ⟨res.result, res.calls + 1, ra :: res.rateWaits, res.fc,
          res.openUntil⟩ := rfl

theorem attemptLoop_serverError (staticKey : Bool) (now : ℚ) (maxRetries : ℕ)
    (code : ℕ) (rest : List HttpResponse) (attempt fc : ℕ) (ou : ℚ) :
    attemptLoop staticKey now maxRetries (.serverError code :: rest)
        attempt fc ou =
      if attempt ≥ maxRetries then ⟨.error .maxRetriesExceeded, 0, [], fc, ou⟩
      else
        let ou1 := if fc + 1 ≥ maxFailures then now + circuitTimeout else ou
        if attempt = maxRetries - 1 then ⟨.error .requestFailed, 1, [], fc + 1, ou1⟩
        else
          let res := attemptLoop staticKey now maxRetries rest (attempt + 1)
            (fc + 1) ou1
          ⟨res.result, res.calls + 1, res.rateWaits, res.fc,
            res.openUntil⟩ := rfl

theorem attemptLoop_netError (staticKey : Bool) (now : ℚ) (maxRetries : ℕ)
    (rest : List HttpResponse) (attempt fc : ℕ) (ou : ℚ) :
    attemptLoop staticKey now maxRetries (.netError :: rest) attempt fc ou =
      if attempt ≥ maxRetries then ⟨.error .maxRetriesExceeded, 0, [], fc, ou⟩
      else
        let ou1 := if fc + 1 ≥ maxFailures then now + circuitTimeout else ou
        if attempt = maxRetries - 1 then ⟨.error .requestFailed, 1, [], fc + 1, ou1⟩
        else
          let res := attemptLoop staticKey now maxRetries rest (attempt + 1)
            (fc + 1) ou1
          ⟨res.result, res.calls + 1, res.rateWaits, res.fc,
            res.openUntil⟩ := rfl

theorem attemptLoop_opens (staticKey : Bool) (now : ℚ) (maxRetries : ℕ) :
    ∀ (resps : List HttpResponse) (attempt fc : ℕ) (ou : ℚ),
      (maxFailures ≤ fc → ou = now + circuitTimeout) →
      maxFailures ≤ (attemptLoop staticKey now maxRetries resps attempt fc ou).fc →
      (attemptLoop staticKey now maxRetries resps attempt fc ou).openUntil =
        now + circuitTimeout := by
  intro resps
  induction resps with
  | nil =>
    intro attempt fc ou hpre h5
    rw [attemptLoop_nil] at h5 ⊢
    exact hpre h5
  | cons r rest ih =>
    intro attempt fc ou hpre h5
    cases r with
    | ok =>
      rw [attemptLoop_ok] at h5 ⊢
      by_cases hat : attempt ≥ maxRetries
      · rw [if_pos hat] at h5 ⊢
        exact hpre h5
      · rw [if_neg hat] at h5 ⊢
        exact absurd h5 (by norm_num [maxFailures])
    | notFound =>
      rw [attemptLoop_notFound] at h5 ⊢
      by_cases hat : attempt ≥ maxRetries
      · rw [if_pos hat] at h5 ⊢
        exact hpre h5
      · rw [if_neg hat] at h5 ⊢
        exact hpre h5
    | forbidden =>
      rw [attemptLoop_forbidden] at h5 ⊢
      by_cases hat : attempt ≥ maxRetries
      · rw [if_pos hat] at h5 ⊢
        exact hpre h5
      · rw [if_neg hat] at h5 ⊢
        by_cases hk : (!staticKey && decide (attempt = 0)) = true
        · rw [if_pos hk] at h5 ⊢
          exact ih (attempt + 1) fc ou hpre h5
        · rw [if_neg hk] at h5 ⊢
          exact hpre h5
    | tooManyRequests ra =>
      rw [attemptLoop_tooMany] at h5 ⊢
      by_cases hat : attempt ≥ maxRetries
      · rw [if_pos hat] at h5 ⊢
        exact hpre h5
      · rw [if_neg hat] at h5 ⊢
        by_cases hlast : attempt = maxRetries - 1
        · rw [if_pos hlast] at h5 ⊢
          exact hpre h5
        · rw [if_neg hlast] at h5 ⊢
          exact ih (attempt + 1) fc ou hpre h5
    | serverError code =>
      rw [attemptLoop_serverError] at h5 ⊢
      by_cases hat : attempt ≥ maxRetries
      · rw [if_pos hat] at h5 ⊢
        exact hpre h5
      · rw [if_neg hat] at h5 ⊢
        by_cases hlast : attempt = maxRetries - 1
        · rw [if_pos hlast] at h5 ⊢
          exact if_pos h5
        · rw [if_neg hlast] at h5 ⊢
          exact ih (attempt + 1) (fc + 1) _ (fun hc => if_pos hc) h5
    | netError =>
      rw [attemptLoop_netError] at h5 ⊢
      by_cases hat : attempt ≥ maxRetries
      · rw [if_pos hat] at h5 ⊢
        exact hpre h5
      · rw [if_neg hat] at h5 ⊢
        by_cases hlast : attempt = maxRetries - 1
        · rw [if_pos hlast] at h5 ⊢
          exact if_pos h5
        · rw [if_neg hlast] at h5 ⊢
          exact ih (attempt + 1) (fc + 1) _ (fun hc => if_pos hc) h5

/-- C7: (i) a request started while the circuit is open fails immediately
with the circuit-open error and issues zero network calls, leaving the state
untouched; (ii) the first request after the cooldown has elapsed is
attempted normally (one network call for an immediate 200) and on success
leaves the failure counter 0 and the circuit closed; (iii) whenever the
failure counter reaches the threshold 5, the circuit is left open until
`now + 60`. -/
theorem circuit_breaker_behaviour (s : CBState) (now : ℚ) (staticKey : Bool)
    (resps : List HttpResponse) :
    (s.circuit_open_until > now →
      makeRequest s now staticKey resps =
        ⟨.error .circuitOpen, 0, [], s.failure_count, s.circuit_open_until⟩) ∧
    (0 < s.circuit_open_until → s.circuit_open_until ≤ now →
      ∀ rest : List HttpResponse,
        makeRequest s now staticKey (.ok :: rest) = ⟨.ok (), 1, [], 0, 0⟩) ∧
    (s.failure_count < maxFailures →
      maxFailures ≤ (makeRequest s now staticKey resps).fc →
      (makeRequest s now staticKey resps).openUntil = now + circuitTimeout) := by
  refine ⟨?_, ?_, ?_⟩
  · intro hopen
    unfold makeRequest checkCircuitBreaker
    rw [if_pos hopen]
  · intro hpos hle rest
    unfold makeRequest checkCircuitBreaker
    rw [if_neg (not_lt.mpr hle), if_pos hpos]
    show attemptLoop staticKey now 3 (.ok :: rest) 0 0 0 = ⟨.ok (), 1, [], 0, 0⟩
    rw [attemptLoop_ok, if_neg (by norm_num)]
  · intro hlt h5
    by_cases hopen : s.circuit_open_until > now
    · have heq : makeRequest s now staticKey resps =
          ⟨.error .circuitOpen, 0, [], s.failure_count, s.circuit_open_until⟩ := by
        unfold makeRequest checkCircuitBreaker
        rw [if_pos hopen]
      rw [heq] at h5
      exact absurd h5 (not_le.mpr hlt)
    · by_cases hp : s.circuit_open_until > 0
      · have heq : makeRequest s now staticKey resps =
            attemptLoop staticKey now 3 resps 0 0 0 := by
          unfold makeRequest checkCircuitBreaker
          rw [if_neg hopen, if_pos hp]
        rw [heq] at h5 ⊢
        exact attemptLoop_opens staticKey now 3 resps 0 0 0
          (fun hc => absurd hc (by norm_num [maxFailures])) h5
      · have heq : makeRequest s now staticKey resps =
            attemptLoop staticKey now 3 resps 0 s.failure_count
              s.circuit_open_until := by
          unfold makeRequest checkCircuitBreaker
          rw [if_neg hopen, if_neg hp]
        rw [heq] at h5 ⊢
        exact attemptLoop_opens staticKey now 3 resps 0 s.failure_count
          s.circuit_open_until (fun hc => absurd hc (not_le.mpr hlt)) h5

/-- Spot check of `circuit_breaker_behaviour`: an open circuit rejects
without calls; a request after the cooldown is attempted and resets the
state; three network failures from a counter of 4 leave the circuit open
until `now + 60`. -/
theorem circuit_breaker_behaviour_spot :
    makeRequest ⟨5, 100⟩ 10 true [] =
      ⟨.error .circuitOpen, 0, [], 5, 100⟩ ∧
    makeRequest ⟨5, 100⟩ 200 true [.ok] = ⟨.ok (), 1, [], 0, 0⟩ ∧
    (makeRequest ⟨4, 0⟩ 10 true [.netError, .netError, .netError]).openUntil =
      10 + circuitTimeout :=
  ⟨(circuit_breaker_behaviour ⟨5, 100⟩ 10 true []).1 (by norm_num),
   (circuit_breaker_behaviour ⟨5, 100⟩ 200 true []).2.1 (by norm_num)
     (by norm_num) [],
   (circuit_breaker_behaviour ⟨4, 0⟩ 10 true
       [.netError, .netError, .netError]).2.2 (by norm_num [maxFailures])
     (by decide)⟩

/-- C9 counterexample: starting with a closed circuit, a request whose three
attempts all receive HTTP 429 (retry-after 7) performs the three waits but
is NOT retried after the third one: only 3 network calls are issued even
though the upstream would answer 200 on a fourth, and the request fails
with `RateLimitExceeded`. The failure counter and the circuit state are
unchanged. -/
theorem rate_limit_final_attempt_not_retried :
    makeRequest ⟨0, 0⟩ 100 true
        [.tooManyRequests 7, .tooManyRequests 7, .tooManyRequests 7, .ok] =
      ⟨.error (.rateLimited 7), 3, [7, 7, 7], 0, 0⟩ := by
  decide

/-- C9 (amended): on an HTTP 429 the client sleeps the retry-after duration
read from the response; unless the 429 arrived on the final retry attempt
(attempt index 2 of `max_retries = 3`) the same request is then retried
(the loop continues at the next attempt, its wait list gaining the
retry-after value); a 429 on the final attempt fails with `RateLimitExceeded`
after the wait. In both cases the circuit breaker's failure counter and
open-until are those of the rest of the loop: the 429 path itself changes
neither. -/
theorem rate_limit_handling (staticKey : Bool) (now : ℚ) (ra : ℕ)
    (rest : List HttpResponse) (attempt fc : ℕ) (ou : ℚ) :
    (attempt < 2 →
      attemptLoop staticKey now 3 (.tooManyRequests ra :: rest) attempt fc ou =
        ⟨(attemptLoop staticKey now 3 rest (attempt + 1) fc ou).result,
         (attemptLoop staticKey now 3 rest (attempt + 1) fc ou).calls + 1,
         ra :: (attemptLoop staticKey now 3 rest (attempt + 1) fc ou).rateWaits,
         (attemptLoop staticKey now 3 rest (attempt + 1) fc ou).fc,
         (attemptLoop staticKey now 3 rest (attempt + 1) fc ou).openUntil⟩) ∧
    (attemptLoop staticKey now 3 (.tooManyRequests ra :: rest) 2 fc ou =
      ⟨.error (.rateLimited ra), 1, [ra], fc, ou⟩) := by
  constructor
  · intro hlt
    rw [attemptLoop_tooMany, if_neg (by omega), if_neg (by omega)]
  · rw [attemptLoop_tooMany, if_neg (by norm_num), if_pos (by norm_num)]

/-- Spot check of `rate_limit_handling`: a 429 on attempt 0 is waited on and
retried, counter untouched. -/
theorem rate_limit_handling_spot :
    attemptLoop true 0 3 [.tooManyRequests 9, .ok] 0 2 5 =
      ⟨(attemptLoop true 0 3 [.ok] 1 2 5).result,
       (attemptLoop true 0 3 [.ok] 1 2 5).calls + 1,
       9 :: (attemptLoop true 0 3 [.ok] 1 2 5).rateWaits,
       (attemptLoop true 0 3 [.ok] 1 2 5).fc,
       (attemptLoop true 0 3 [.ok] 1 2 5).openUntil⟩ :=
  (rate_limit_handling true 0 9 [.ok] 0 2 5).1 (by norm_num)

/-- C8 counterexample: eleven full pages of 100 ids in which exactly one
detail fetch (the first id of the first page) fails leave the accumulated
list at 999 after ten pages — below the 1000 cutoff, so the loop continues —
and the eleventh full page pushes it to 1099. The returned list has 1099
entries, exceeding the claimed hard ceiling of 1000. -/
theorem fetch_history_can_exceed_1000 :
    (get_full_match_history_with_time
        ((none :: List.replicate 99 (some fxMatchJan)) ::
          List.replicate 10 (List.replicate 100 (some fxMatchJan)))).length =
      1099 := by
  decide

/-- C8 (amended): assuming every page holds at most the requested 100 ids,
the accumulation loop — which stops at the first page boundary where the
total has reached 1000 — returns at most 1099 matches (999 before the last
full page plus up to 100 more). -/
theorem fetch_history_bounded (pages : List (List (Option RiotMatch)))
    (hb : ∀ p ∈ pages, p.length ≤ 100) :
    (get_full_match_history_with_time pages).length ≤ 1099 := by
  have main : ∀ (ps : List (List (Option RiotMatch))) (acc : List RiotMatch),
      (∀ p ∈ ps, p.length ≤ 100) → acc.length ≤ 999 →
      (fetchLoop ps acc).length ≤ 1099 := by
    intro ps
    induction ps with
    | nil =>
      intro acc _ hacc
      rw [fetchLoop]
      omega
    | cons page rest ih =>
      intro acc hb1 hacc
      rw [fetchLoop]
      by_cases hemp : page.isEmpty
      · rw [if_pos hemp]
        omega
      · rw [if_neg hemp]
        have hlen : (acc ++ page.filterMap id).length ≤ 1099 := by
          have h1 : (page.filterMap id).length ≤ page.length :=
            List.length_filterMap_le id page
          have h2 : page.length ≤ 100 := hb1 page (List.mem_cons_self page rest)
          rw [List.length_append]
          omega
        by_cases hshort : page.length < 100
        · rw [if_pos hshort]
          exact hlen
        · rw [if_neg hshort]
          by_cases hcap : (acc ++ page.filterMap id).length ≥ 1000
          · rw [if_pos hcap]
            exact hlen
          · rw [if_neg hcap]
            exact ih (acc ++ page.filterMap id)
              (fun p hp => hb1 p (List.mem_cons_of_mem page hp)) (by omega)
  exact main pages [] hb (by norm_num)

/-- Spot check of `fetch_history_bounded` on a single short page. -/
theorem fetch_history_bounded_spot :
    (get_full_match_history_with_time [[some fxMatchJan]]).length ≤ 1099 :=
  fetch_history_bounded [[some fxMatchJan]] (by decide)
